import Mathlib

/-!
Shallow embedding of the `ac-lib` repository's wire-format parser
(`src/parser.rs`, with `build_msg` duplicated in `src/lib.rs`).

Modelling conventions:
* A Rust `u8` buffer byte is `Byte := Fin 256`; buffers are `List Byte`.
* A fallible Rust computation is a `DResult`: `ok`, `err` (the `?`-returned
  `anyhow::Error`, classified by which source expression produced it), or
  `panicked` (an out-of-range slice index `&buf[a..b]`, which aborts in Rust
  instead of returning an error).  Rust evaluates the struct fields of
  `Event::from_bytes` in source order and `?`/panic short-circuit, which is
  exactly monadic bind over `DResult`.
* `f32` values are represented by their little-endian 32-bit bit pattern as a
  `Nat` (`f32::from_le_bytes` is bit-preserving, so nothing is lost).
* Machine integers are `Nat`/`Int`; `i32::from_le_bytes` applies the
  two's-complement reading of the 32-bit little-endian value.
-/

set_option maxHeartbeats 1000000
set_option maxRecDepth 8192

namespace AcLib

/-- One byte of a wire buffer (`u8` in the Rust source). -/
abbrev Byte := Fin 256

/-- A 32-bit float, represented by its little-endian bit pattern. -/
abbrev F32 := Nat

/-- Classification of the `anyhow::Error` values the parser can produce:
`malformedField` is a `TryFromSliceError` from a wrong-width `try_into()`,
`charParseError` is a `CharTryFromError` from `str::parse::<char>()`, and
`unrecognizedLength` is the `bail!("No matching size found for message")`
in the default arm of `Event::from_bytes`. -/
inductive ParseError where
  | malformedField
  | charParseError
  | unrecognizedLength
  deriving DecidableEq

/-- Outcome of a fallible decode step: a value, an error returned through `?`,
or a Rust panic caused by an out-of-bounds slice index. -/
inductive DResult (α : Type) where
  | ok (a : α)
  | err (e : ParseError)
  | panicked
  deriving DecidableEq

/-- Sequencing of decode steps: `?`-errors and panics short-circuit. -/
def DResult.bind {α β : Type} : DResult α → (α → DResult β) → DResult β
  | .ok a, f => f a
  | .err e, _ => .err e
  | .panicked, _ => .panicked

instance : Monad DResult where
  pure := DResult.ok
  bind := DResult.bind

/-- Rust slice indexing `&buf[a..b]`: yields the sub-slice when the range is
in bounds, and panics (never returns an error) otherwise. -/
def slice (buf : List Byte) (a b : Nat) : DResult (List Byte) :=
  if a ≤ b ∧ b ≤ buf.length then .ok ((buf.drop a).take (b - a)) else .panicked

/-- Rust `<&[u8] as TryInto<[u8; n]>>::try_into`: succeeds exactly when the
slice has width `n`, otherwise gives the `TryFromSliceError` that `?`
converts into the decode error. -/
def tryInto (n : Nat) (s : List Byte) : DResult (List Byte) :=
  if s.length = n then .ok s else .err .malformedField

/-- The value of a little-endian byte string as an unsigned number
(shared reading underlying `u8::from_le_bytes` / `u32::from_le_bytes`). -/
def le_bytes_to_nat (s : List Byte) : Nat :=
  s.foldr (fun b acc => b.val + 256 * acc) 0

/-- Rust `u8::from_le_bytes` on a 1-byte array. -/
def u8_from_le_bytes (s : List Byte) : Nat := le_bytes_to_nat s

/-- Rust `u32::from_le_bytes` on a 4-byte array. -/
def u32_from_le_bytes (s : List Byte) : Nat := le_bytes_to_nat s

/-- Rust `i32::from_le_bytes` on a 4-byte array: two's-complement reading. -/
def i32_from_le_bytes (s : List Byte) : Int :=
  if le_bytes_to_nat s < 2 ^ 31 then (le_bytes_to_nat s : Int)
  else (le_bytes_to_nat s : Int) - 2 ^ 32

/-- Rust `f32::from_le_bytes` on a 4-byte array, as the float's bit pattern. -/
def f32_from_le_bytes (s : List Byte) : F32 := le_bytes_to_nat s

/-- Rust `str::parse::<char>()`: succeeds exactly when the string consists of
a single character. -/
def char_from_str (s : String) : DResult Char :=
  match s.data with
  | [c] => .ok c
  | _ => .err .charParseError

/-- The U+FFFD replacement character produced by the lossy text decoders. -/
def replacementChar : Char := Char.ofNat 0xFFFD

/-- Whether a byte is a UTF-8 continuation byte (`0x80..=0xBF`). -/
def isUtf8Cont (b : Nat) : Bool := 0x80 ≤ b && b < 0xC0

/-- Admissible second byte of a three-byte UTF-8 sequence headed by `b0`. -/
def utf8Cont3 (b0 b1 : Nat) : Bool :=
  if b0 = 0xE0 then 0xA0 ≤ b1 && b1 < 0xC0
  else if b0 = 0xED then 0x80 ≤ b1 && b1 < 0xA0
  else isUtf8Cont b1

/-- Admissible second byte of a four-byte UTF-8 sequence headed by `b0`. -/
def utf8Cont4 (b0 b1 : Nat) : Bool :=
  if b0 = 0xF0 then 0x90 ≤ b1 && b1 < 0xC0
  else if b0 = 0xF4 then 0x80 ≤ b1 && b1 < 0x90
  else isUtf8Cont b1

/-- Worker for `utf8LossyDecode`.  The fuel argument only drives structural
recursion: every step consumes at least one input byte, so fuel equal to the
input length (as supplied by `utf8LossyDecode`) is never exhausted. -/
def utf8LossyGo : Nat → List Nat → List Char
  | 0, _ => []
  | _ + 1, [] => []
  | fuel + 1, b0 :: rest =>
    if b0 < 0x80 then Char.ofNat b0 :: utf8LossyGo fuel rest
    else if b0 < 0xC2 then replacementChar :: utf8LossyGo fuel rest
    else if b0 < 0xE0 then
      match rest with
      | [] => [replacementChar]
      | b1 :: rest1 =>
        if isUtf8Cont b1 then
          Char.ofNat ((b0 - 0xC0) * 0x40 + (b1 - 0x80)) :: utf8LossyGo fuel rest1
        else replacementChar :: utf8LossyGo fuel (b1 :: rest1)
    else if b0 < 0xF0 then
      match rest with
      | [] => [replacementChar]
      | b1 :: rest1 =>
        if utf8Cont3 b0 b1 then
          match rest1 with
          | [] => [replacementChar]
          | b2 :: rest2 =>
            if isUtf8Cont b2 then
              Char.ofNat (((b0 - 0xE0) * 0x40 + (b1 - 0x80)) * 0x40 + (b2 - 0x80))
                :: utf8LossyGo fuel rest2
            else replacementChar :: utf8LossyGo fuel (b2 :: rest2)
        else replacementChar :: utf8LossyGo fuel (b1 :: rest1)
    else if b0 < 0xF5 then
      match rest with
      | [] => [replacementChar]
      | b1 :: rest1 =>
        if utf8Cont4 b0 b1 then
          match rest1 with
          | [] => [replacementChar]
          | b2 :: rest2 =>
            if isUtf8Cont b2 then
              match rest2 with
              | [] => [replacementChar]
              | b3 :: rest3 =>
                if isUtf8Cont b3 then
                  Char.ofNat ((((b0 - 0xF0) * 0x40 + (b1 - 0x80)) * 0x40 + (b2 - 0x80)) * 0x40
                      + (b3 - 0x80))
                    :: utf8LossyGo fuel rest3
                else replacementChar :: utf8LossyGo fuel (b3 :: rest3)
            else replacementChar :: utf8LossyGo fuel (b2 :: rest2)
        else replacementChar :: utf8LossyGo fuel (b1 :: rest1)
    else replacementChar :: utf8LossyGo fuel rest

/-- Rust `String::from_utf8_lossy`: decodes UTF-8, replacing each maximal
subpart of an ill-formed subsequence by one U+FFFD, and never fails. -/
def utf8LossyDecode (l : List Nat) : List Char :=
  utf8LossyGo l.length l

/-- `parse_utf8_chars` from `parser.rs`: lossy UTF-8 decoding followed by
filtering out every NUL character and every `%` character. -/
def parse_utf8_chars (buf : List Byte) : String :=
  String.mk ((utf8LossyDecode (buf.map Fin.val)).filter
    (fun v => v != Char.ofNat 0 && v != '%'))

/-- Rust `String::from_utf16_lossy`: decodes UTF-16 code units, replacing
each unpaired surrogate by U+FFFD, and never fails. -/
def utf16LossyDecode : List Nat → List Char
  | [] => []
  | [u] =>
    if u < 0xD800 || 0xE000 ≤ u then [Char.ofNat u] else [replacementChar]
  | u :: u2 :: rest =>
    if u < 0xD800 || 0xE000 ≤ u then Char.ofNat u :: utf16LossyDecode (u2 :: rest)
    else if u < 0xDC00 then
      if 0xDC00 ≤ u2 && u2 < 0xE000 then
        Char.ofNat (0x10000 + (u - 0xD800) * 0x400 + (u2 - 0xDC00)) :: utf16LossyDecode rest
      else replacementChar :: utf16LossyDecode (u2 :: rest)
    else replacementChar :: utf16LossyDecode (u2 :: rest)

/-- `parse_to_utf16_chars` from `parser.rs`.  The source maps EACH SINGLE BYTE
to its own `u16` code unit (`.map(|v| *v as u16)` zero-extends one byte; the
following `.map(|v| v.to_le())` is a no-op on the value), feeds those units to
`String::from_utf16_lossy`, and then filters out NUL and `%` characters. -/
def parse_to_utf16_chars (buf : List Byte) : String :=
  String.mk ((utf16LossyDecode (buf.map Fin.val)).filter
    (fun v => v != Char.ofNat 0 && v != '%'))

/-- Modelled from the spec: the wide-text decoder as the spec describes it —
"reinterprets each consecutive pair of input bytes as one little-endian 16-bit
code unit", decodes those units as lossy wide text, then strips every null
unit and every `%` character.  It exists only to be compared against the
repository's `parse_to_utf16_chars`; the spec does not address buffers of odd
length (all protocol fields are even), so an incomplete final pair is dropped. -/
def bytePairsLE : List Byte → List Nat
  | b0 :: b1 :: rest => (b0.val + 256 * b1.val) :: bytePairsLE rest
  | _ => []

/-- Modelled from the spec: wide-text decoding of byte pairs, see `bytePairsLE`. -/
def spec_wide_decode (buf : List Byte) : String :=
  String.mk ((utf16LossyDecode (bytePairsLE buf)).filter
    (fun v => v != Char.ofNat 0 && v != '%'))

/-- `parse_bool_from_bytes` from `parser.rs`:
`u8::from_le_bytes(buf.try_into()?)` then `!matches!(parsed_num, 0)`. -/
def parse_bool_from_bytes (buf : List Byte) : DResult Bool := do
  let arr ← tryInto 1 buf
  pure (u8_from_le_bytes arr != 0)

/-- The inline idiom `i32::from_le_bytes(buf[a..b].try_into()?)`. -/
def i32_from_le_slice (buf : List Byte) (a b : Nat) : DResult Int := do
  let s ← slice buf a b
  let arr ← tryInto 4 s
  pure (i32_from_le_bytes arr)

/-- The inline idiom `u32::from_le_bytes(buf[a..b].try_into()?)`. -/
def u32_from_le_slice (buf : List Byte) (a b : Nat) : DResult Nat := do
  let s ← slice buf a b
  let arr ← tryInto 4 s
  pure (u32_from_le_bytes arr)

/-- The inline idiom `f32::from_le_bytes(buf[a..b].try_into()?)`. -/
def f32_from_le_slice (buf : List Byte) (a b : Nat) : DResult F32 := do
  let s ← slice buf a b
  let arr ← tryInto 4 s
  pure (f32_from_le_bytes arr)

/-- The call pattern `parse_bool_from_bytes(&buf[a..b])?`. -/
def bool_from_le_slice (buf : List Byte) (a b : Nat) : DResult Bool := do
  let s ← slice buf a b
  parse_bool_from_bytes s

/-- `parse_f32_wheels` from `parser.rs`: four `f32::from_le_bytes` reads at
fixed offsets of the given slice, in wheel order. -/
def parse_f32_wheels (buf : List Byte) : DResult (List F32) := do
  let front_left ← f32_from_le_slice buf 0 4
  let front_right ← f32_from_le_slice buf 4 8
  let back_left ← f32_from_le_slice buf 8 12
  let back_right ← f32_from_le_slice buf 12 16
  pure [front_left, front_right, back_left, back_right]

/-- The call pattern `parse_f32_wheels(&buf[a..b])?`. -/
def wheels_from_le_slice (buf : List Byte) (a b : Nat) : DResult (List F32) := do
  let s ← slice buf a b
  parse_f32_wheels s

/-- The `CarInfo` payload of `Event::CarInfo` in `parser.rs`, with the
source's field names and order. -/
structure CarInfo where
  identifier : Char
  size : Int
  speed_kmh : F32
  speed_mph : F32
  speed_ms : F32
  is_abs_enabled : Bool
  is_abs_in_action : Bool
  is_tc_in_action : Bool
  is_tc_enabled : Bool
  is_in_pit : Bool
  is_engine_limiter_on : Bool
  accg_vertical : F32
  accg_horizontal : F32
  accg_frontal : F32
  lap_time : Nat
  last_lap : Nat
  best_lap : Nat
  lap_count : Nat
  gas : F32
  brake : F32
  clutch : F32
  engine_rpm : F32
  steer : F32
  gear : Int
  cg_height : F32
  wheel_angular_speed : List F32
  slip_angle : List F32
  slip_angle_contact_patch : List F32
  slip_ratio : List F32
  tyre_slip : List F32
  nd_slip : List F32
  load : List F32
  dy : List F32
  mz : List F32
  tyre_dirty_level : List F32
  camber_rad : List F32
  tyre_radius : List F32
  tyre_loaded_radius : List F32
  suspension_height : List F32
  car_pos_normalized : F32
  car_slope : F32
  car_coordinates : List F32
  deriving DecidableEq

/-- The `Event` enum of `parser.rs`. -/
inductive Event where
  | handshakeResponse (car_name driver_name : String) (identifier version : Int)
      (track_name track_config : String)
  | carInfo (info : CarInfo)
  | lapInfo (car_id_num lap time : Int) (car_name driver_name : String)
  deriving DecidableEq

/-- The `408 =>` arm of `Event::from_bytes`: fields of
`Event::HandshakeResponse` evaluated in source order. -/
def decodeHandshakeResponse (buf : List Byte) : DResult Event := do
  let car_name_bytes ← slice buf 0 100
  let driver_name_bytes ← slice buf 100 200
  let identifier ← i32_from_le_slice buf 200 204
  let version ← i32_from_le_slice buf 204 208
  let track_name_bytes ← slice buf 208 308
  let track_config_bytes ← slice buf 308 408
  pure (.handshakeResponse (parse_utf8_chars car_name_bytes)
    (parse_utf8_chars driver_name_bytes) identifier version
    (parse_to_utf16_chars track_name_bytes) (parse_to_utf16_chars track_config_bytes))

/-- The `328 =>` arm of `Event::from_bytes`: fields of `Event::CarInfo`
evaluated in source order.  Note the source's byte ranges, including
`lap_count` read from `buf[42..56]`. -/
def decodeCarInfo (buf : List Byte) : DResult Event := do
  let ident_bytes ← slice buf 0 4
  let identifier ← char_from_str (parse_utf8_chars ident_bytes)
  let size ← i32_from_le_slice buf 4 8
  let speed_kmh ← f32_from_le_slice buf 8 12
  let speed_mph ← f32_from_le_slice buf 12 16
  let speed_ms ← f32_from_le_slice buf 16 20
  let is_abs_enabled ← bool_from_le_slice buf 20 21
  let is_abs_in_action ← bool_from_le_slice buf 21 22
  let is_tc_in_action ← bool_from_le_slice buf 22 23
  let is_tc_enabled ← bool_from_le_slice buf 23 24
  let is_in_pit ← bool_from_le_slice buf 26 27
  let is_engine_limiter_on ← bool_from_le_slice buf 27 28
  let accg_vertical ← f32_from_le_slice buf 28 32
  let accg_horizontal ← f32_from_le_slice buf 32 36
  let accg_frontal ← f32_from_le_slice buf 36 40
  let lap_time ← u32_from_le_slice buf 40 44
  let last_lap ← u32_from_le_slice buf 44 48
  let best_lap ← u32_from_le_slice buf 48 52
  let lap_count ← u32_from_le_slice buf 42 56
  let gas ← f32_from_le_slice buf 56 60
  let brake ← f32_from_le_slice buf 60 64
  let clutch ← f32_from_le_slice buf 64 68
  let engine_rpm ← f32_from_le_slice buf 68 72
  let steer ← f32_from_le_slice buf 72 76
  let gear ← i32_from_le_slice buf 76 80
  let cg_height ← f32_from_le_slice buf 80 84
  let wheel_angular_speed ← wheels_from_le_slice buf 84 100
  let slip_angle ← wheels_from_le_slice buf 100 116
  let slip_angle_contact_patch ← wheels_from_le_slice buf 116 132
  let slip_ratio ← wheels_from_le_slice buf 132 148
  let tyre_slip ← wheels_from_le_slice buf 148 164
  let nd_slip ← wheels_from_le_slice buf 164 180
  let load ← wheels_from_le_slice buf 180 196
  let dy ← wheels_from_le_slice buf 196 212
  let mz ← wheels_from_le_slice buf 212 228
  let tyre_dirty_level ← wheels_from_le_slice buf 228 244
  let camber_rad ← wheels_from_le_slice buf 244 260
  let tyre_radius ← wheels_from_le_slice buf 260 276
  let tyre_loaded_radius ← wheels_from_le_slice buf 276 292
  let suspension_height ← wheels_from_le_slice buf 292 308
  let car_pos_normalized ← f32_from_le_slice buf 308 312
  let car_slope ← f32_from_le_slice buf 312 316
  let car_coordinates ← wheels_from_le_slice buf 316 332
  pure (.carInfo (CarInfo.mk identifier size speed_kmh speed_mph speed_ms
    is_abs_enabled is_abs_in_action is_tc_in_action is_tc_enabled is_in_pit
    is_engine_limiter_on accg_vertical accg_horizontal accg_frontal
    lap_time last_lap best_lap lap_count gas brake clutch engine_rpm steer
    gear cg_height wheel_angular_speed slip_angle slip_angle_contact_patch
    slip_ratio tyre_slip nd_slip load dy mz tyre_dirty_level camber_rad
    tyre_radius tyre_loaded_radius suspension_height car_pos_normalized
    car_slope car_coordinates))

/-- `Event::from_bytes` from `parser.rs`: dispatch on the exact received
length; the `212 =>` arm builds `Event::LapInfo` purely from `Default`
values (`i32::default() = 0`, `String::default() = ""`) without touching
the buffer, and the default arm is
`bail!("No matching size found for message")`. -/
def Event.from_bytes (size : Nat) (buf : List Byte) : DResult Event :=
  if size = 408 then decodeHandshakeResponse buf
  else if size = 328 then decodeCarInfo buf
  else if size = 212 then pure (.lapInfo 0 0 0 "" "")
  else .err .unrecognizedLength

/-- The `Device` enum of `parser.rs`. -/
inductive Device where
  | iPhone
  | iPad
  | androidPhone
  | androidTablet
  deriving DecidableEq

/-- The Rust cast `device as i32` (the enum's explicit discriminants). -/
def Device.toI32 : Device → Int
  | .iPhone => 0
  | .iPad => 1
  | .androidPhone => 2
  | .androidTablet => 3

/-- The `Operation` enum of `parser.rs`. -/
inductive Operation where
  | handshake
  | subscribeUpdate
  | subscribeSpot
  | dismiss
  deriving DecidableEq

/-- The Rust cast `op as i32` (the enum's explicit discriminants). -/
def Operation.toI32 : Operation → Int
  | .handshake => 0
  | .subscribeUpdate => 1
  | .subscribeSpot => 2
  | .dismiss => 3

/-- `BytesMut::put_i32_le`: append the 4 little-endian bytes of an `i32`
(two's complement of the value, low byte first). -/
def i32_to_le_bytes (i : Int) : List Byte :=
  let n : Nat := (i % (2 ^ 32 : Int)).toNat
  [⟨n % 256, by omega⟩, ⟨n / 256 % 256, by omega⟩,
   ⟨n / 65536 % 256, by omega⟩, ⟨n / 16777216 % 256, by omega⟩]

/-- `build_udp_message` from `parser.rs` (`build_msg` in `lib.rs` is the
identical function): device discriminant, the literal `1`, then the
operation discriminant, each as 4 little-endian bytes. -/
def build_udp_message (op : Operation) (device : Device) : List Byte :=
  i32_to_le_bytes device.toI32 ++ i32_to_le_bytes 1 ++ i32_to_le_bytes op.toI32

/-! Lemmas about the `DResult` monad and the primitive decode steps. -/

@[simp]
theorem ok_bind {α β : Type} (a : α) (f : α → DResult β) :
    (DResult.ok a : DResult α) >>= f = f a := rfl

@[simp]
theorem err_bind {α β : Type} (e : ParseError) (f : α → DResult β) :
    (DResult.err e : DResult α) >>= f = .err e := rfl

@[simp]
theorem panicked_bind {α β : Type} (f : α → DResult β) :
    (DResult.panicked : DResult α) >>= f = .panicked := rfl

@[simp]
theorem pure_eq_ok {α : Type} (a : α) : (pure a : DResult α) = .ok a := rfl

theorem bind_ok_elim {α β : Type} {m : DResult α} {f : α → DResult β} {b : β}
    (h : m >>= f = .ok b) : ∃ a, m = .ok a ∧ f a = .ok b := by
  cases m with
  | ok a => exact ⟨a, rfl, h⟩
  | err e => simp at h
  | panicked => simp at h

theorem slice_ok {buf : List Byte} {a b : Nat} (h1 : a ≤ b) (h2 : b ≤ buf.length) :
    slice buf a b = .ok ((buf.drop a).take (b - a)) := by
  simp [slice, h1, h2]

theorem slice_panic {buf : List Byte} {a b : Nat} (h : buf.length < b) :
    slice buf a b = .panicked := by
  have : ¬(a ≤ b ∧ b ≤ buf.length) := by omega
  simp [slice, this]

theorem slice_ok_inv {buf : List Byte} {a b : Nat} {s : List Byte}
    (h : slice buf a b = .ok s) : a ≤ b ∧ b ≤ buf.length ∧ s.length = b - a := by
  unfold slice at h
  split at h
  · rename_i hc
    injection h with h
    subst h
    refine ⟨hc.1, hc.2, ?_⟩
    simp only [List.length_take, List.length_drop]
    omega
  · simp at h

theorem tryInto_ok {n : Nat} {s : List Byte} (h : s.length = n) :
    tryInto n s = .ok s := by
  simp [tryInto, h]

theorem tryInto_err {n : Nat} {s : List Byte} (h : s.length ≠ n) :
    tryInto n s = .err .malformedField := by
  simp [tryInto, h]

theorem tryInto_ok_inv {n : Nat} {s t : List Byte} (h : tryInto n s = .ok t) :
    s.length = n ∧ t = s := by
  unfold tryInto at h
  split at h
  · rename_i hc
    injection h with h
    exact ⟨hc, h.symm⟩
  · simp at h

theorem char_from_str_ne_panicked (s : String) : char_from_str s ≠ .panicked := by
  unfold char_from_str
  split <;> simp

/-! Lemmas about the composite slice-reading idioms. -/

theorem i32_slice_ok {buf : List Byte} {a b : Nat}
    (h1 : a ≤ b) (h2 : b ≤ buf.length) (h3 : b - a = 4) :
    i32_from_le_slice buf a b = .ok (i32_from_le_bytes ((buf.drop a).take (b - a))) := by
  unfold i32_from_le_slice
  rw [slice_ok h1 h2]
  simp only [ok_bind]
  rw [tryInto_ok (by simp only [List.length_take, List.length_drop]; omega)]
  simp

theorem u32_slice_ok {buf : List Byte} {a b : Nat}
    (h1 : a ≤ b) (h2 : b ≤ buf.length) (h3 : b - a = 4) :
    u32_from_le_slice buf a b = .ok (u32_from_le_bytes ((buf.drop a).take (b - a))) := by
  unfold u32_from_le_slice
  rw [slice_ok h1 h2]
  simp only [ok_bind]
  rw [tryInto_ok (by simp only [List.length_take, List.length_drop]; omega)]
  simp

theorem f32_slice_ok {buf : List Byte} {a b : Nat}
    (h1 : a ≤ b) (h2 : b ≤ buf.length) (h3 : b - a = 4) :
    f32_from_le_slice buf a b = .ok (f32_from_le_bytes ((buf.drop a).take (b - a))) := by
  unfold f32_from_le_slice
  rw [slice_ok h1 h2]
  simp only [ok_bind]
  rw [tryInto_ok (by simp only [List.length_take, List.length_drop]; omega)]
  simp

theorem bool_slice_ok {buf : List Byte} {a b : Nat}
    (h1 : a ≤ b) (h2 : b ≤ buf.length) (h3 : b - a = 1) :
    bool_from_le_slice buf a b
      = .ok (u8_from_le_bytes ((buf.drop a).take (b - a)) != 0) := by
  unfold bool_from_le_slice parse_bool_from_bytes
  rw [slice_ok h1 h2]
  simp only [ok_bind]
  rw [tryInto_ok (by simp only [List.length_take, List.length_drop]; omega)]
  simp

theorem u32_slice_err {buf : List Byte} {a b : Nat}
    (h1 : a ≤ b) (h2 : b ≤ buf.length) (h3 : b - a ≠ 4) :
    u32_from_le_slice buf a b = .err .malformedField := by
  unfold u32_from_le_slice
  rw [slice_ok h1 h2]
  simp only [ok_bind]
  rw [tryInto_err (by simp only [List.length_take, List.length_drop]; omega)]
  simp

theorem f32_slice_panic {buf : List Byte} {a b : Nat} (h : buf.length < b) :
    f32_from_le_slice buf a b = .panicked := by
  unfold f32_from_le_slice
  rw [slice_panic h]
  simp

theorem u32_slice_ok_inv {buf : List Byte} {a b : Nat} {v : Nat}
    (h : u32_from_le_slice buf a b = .ok v) : b - a = 4 := by
  unfold u32_from_le_slice at h
  obtain ⟨s, hs, h⟩ := bind_ok_elim h
  obtain ⟨t, ht, h⟩ := bind_ok_elim h
  have h1 := (slice_ok_inv hs).2.2
  have h2 := (tryInto_ok_inv ht).1
  omega

/-! No step of the two non-trivial decode arms can ever produce the
`unrecognizedLength` error: that error only arises in the default arm of
the length dispatch. -/

theorem noUnrec_bind {α β : Type} {m : DResult α} {f : α → DResult β}
    (hm : m ≠ .err .unrecognizedLength) (hf : ∀ a, f a ≠ .err .unrecognizedLength) :
    m >>= f ≠ .err .unrecognizedLength := by
  cases m with
  | ok a => simpa using hf a
  | err e => simpa using hm
  | panicked => simp

theorem pure_noUnrec {α : Type} (a : α) :
    (pure a : DResult α) ≠ .err .unrecognizedLength := by simp

theorem slice_noUnrec (buf : List Byte) (a b : Nat) :
    slice buf a b ≠ .err .unrecognizedLength := by
  unfold slice
  split <;> simp

theorem tryInto_noUnrec (n : Nat) (s : List Byte) :
    tryInto n s ≠ .err .unrecognizedLength := by
  unfold tryInto
  split <;> simp

theorem char_from_str_noUnrec (s : String) :
    char_from_str s ≠ .err .unrecognizedLength := by
  unfold char_from_str
  split <;> simp

theorem parse_bool_from_bytes_noUnrec (s : List Byte) :
    parse_bool_from_bytes s ≠ .err .unrecognizedLength := by
  unfold parse_bool_from_bytes
  exact noUnrec_bind (tryInto_noUnrec _ _) fun _ => pure_noUnrec _

theorem i32_slice_noUnrec (buf : List Byte) (a b : Nat) :
    i32_from_le_slice buf a b ≠ .err .unrecognizedLength := by
  unfold i32_from_le_slice
  exact noUnrec_bind (slice_noUnrec _ _ _) fun _ =>
    noUnrec_bind (tryInto_noUnrec _ _) fun _ => pure_noUnrec _

theorem u32_slice_noUnrec (buf : List Byte) (a b : Nat) :
    u32_from_le_slice buf a b ≠ .err .unrecognizedLength := by
  unfold u32_from_le_slice
  exact noUnrec_bind (slice_noUnrec _ _ _) fun _ =>
    noUnrec_bind (tryInto_noUnrec _ _) fun _ => pure_noUnrec _

theorem f32_slice_noUnrec (buf : List Byte) (a b : Nat) :
    f32_from_le_slice buf a b ≠ .err .unrecognizedLength := by
  unfold f32_from_le_slice
  exact noUnrec_bind (slice_noUnrec _ _ _) fun _ =>
    noUnrec_bind (tryInto_noUnrec _ _) fun _ => pure_noUnrec _

theorem bool_slice_noUnrec (buf : List Byte) (a b : Nat) :
    bool_from_le_slice buf a b ≠ .err .unrecognizedLength := by
  unfold bool_from_le_slice
  exact noUnrec_bind (slice_noUnrec _ _ _) fun _ => parse_bool_from_bytes_noUnrec _

theorem parse_f32_wheels_noUnrec (s : List Byte) :
    parse_f32_wheels s ≠ .err .unrecognizedLength := by
  unfold parse_f32_wheels
  exact noUnrec_bind (f32_slice_noUnrec _ _ _) fun _ =>
    noUnrec_bind (f32_slice_noUnrec _ _ _) fun _ =>
      noUnrec_bind (f32_slice_noUnrec _ _ _) fun _ =>
        noUnrec_bind (f32_slice_noUnrec _ _ _) fun _ => pure_noUnrec _

theorem wheels_slice_noUnrec (buf : List Byte) (a b : Nat) :
    wheels_from_le_slice buf a b ≠ .err .unrecognizedLength := by
  unfold wheels_from_le_slice
  exact noUnrec_bind (slice_noUnrec _ _ _) fun _ => parse_f32_wheels_noUnrec _

theorem decodeHandshakeResponse_noUnrec (buf : List Byte) :
    decodeHandshakeResponse buf ≠ .err .unrecognizedLength := by
  unfold decodeHandshakeResponse
  exact noUnrec_bind (slice_noUnrec _ _ _) fun _ =>
    noUnrec_bind (slice_noUnrec _ _ _) fun _ =>
      noUnrec_bind (i32_slice_noUnrec _ _ _) fun _ =>
        noUnrec_bind (i32_slice_noUnrec _ _ _) fun _ =>
          noUnrec_bind (slice_noUnrec _ _ _) fun _ =>
            noUnrec_bind (slice_noUnrec _ _ _) fun _ => pure_noUnrec _

theorem decodeCarInfo_noUnrec (buf : List Byte) :
    decodeCarInfo buf ≠ .err .unrecognizedLength := by
  unfold decodeCarInfo
  repeat
    first
      | exact pure_noUnrec _
      | refine noUnrec_bind (slice_noUnrec _ _ _) fun _ => ?_
      | refine noUnrec_bind (char_from_str_noUnrec _) fun _ => ?_
      | refine noUnrec_bind (i32_slice_noUnrec _ _ _) fun _ => ?_
      | refine noUnrec_bind (u32_slice_noUnrec _ _ _) fun _ => ?_
      | refine noUnrec_bind (f32_slice_noUnrec _ _ _) fun _ => ?_
      | refine noUnrec_bind (bool_slice_noUnrec _ _ _) fun _ => ?_
      | refine noUnrec_bind (wheels_slice_noUnrec _ _ _) fun _ => ?_

/-! The claims. -/

/-- C1: for sizes 408, 328 and 212 `Event::from_bytes` never fails with the
UnrecognizedLength error (the dispatch selects the HandshakeResponse, CarInfo
and LapInfo arms respectively), and for every other size it always fails with
the UnrecognizedLength error. -/
theorem from_bytes_unrecognized_length_dispatch :
    ∀ (size : Nat) (buf : List Byte),
      ((size = 408 ∨ size = 328 ∨ size = 212) →
        Event.from_bytes size buf ≠ .err .unrecognizedLength)
      ∧ ((size ≠ 408 ∧ size ≠ 328 ∧ size ≠ 212) →
        Event.from_bytes size buf = .err .unrecognizedLength) := by
  intro size buf
  constructor
  · rintro (rfl | rfl | rfl)
    · unfold Event.from_bytes
      rw [if_pos rfl]
      exact decodeHandshakeResponse_noUnrec buf
    · unfold Event.from_bytes
      rw [if_neg (by decide), if_pos rfl]
      exact decodeCarInfo_noUnrec buf
    · unfold Event.from_bytes
      rw [if_neg (by decide), if_neg (by decide), if_pos rfl]
      simp
  · rintro ⟨h1, h2, h3⟩
    unfold Event.from_bytes
    rw [if_neg h1, if_neg h2, if_neg h3]

/-- Witness for C1 at the sizes 408, 212 and 500 with the empty buffer. -/
theorem from_bytes_unrecognized_length_dispatch_witness :
    Event.from_bytes 408 [] ≠ .err .unrecognizedLength
    ∧ Event.from_bytes 212 [] ≠ .err .unrecognizedLength
    ∧ Event.from_bytes 500 [] = .err .unrecognizedLength :=
  ⟨(from_bytes_unrecognized_length_dispatch 408 []).1 (Or.inl rfl),
   (from_bytes_unrecognized_length_dispatch 212 []).1 (Or.inr (Or.inr rfl)),
   (from_bytes_unrecognized_length_dispatch 500 []).2 (by decide)⟩

/-- C2 (code bug): lap_time, last_lap and best_lap are read from [40,44),
[44,48) and [48,52) as claimed, but lap_count is read from `buf[42..56]` — a
14-byte slice — whose conversion into a 4-byte integer always fails.  On the
buffer below (byte 0x41 then 331 zero bytes, so the subtype tag parses and
every earlier field succeeds) the size-328 decode therefore returns the
MalformedField error instead of a CarInfo. -/
theorem carinfo_lap_count_always_malformed :
    Event.from_bytes 328 ((65 : Byte) :: List.replicate 331 (0 : Byte))
      = .err .malformedField := rfl

/-- C3 counterexample: on the empty buffer with claimed size 408 the decoder
panics on the out-of-bounds slice `buf[0..100]`; it does not fail with a
TruncatedBuffer error (no such error exists in the code). -/
theorem from_bytes_short_buffer_panics_cex :
    Event.from_bytes 408 [] = .panicked := rfl

/-- C3 (amended): for every buffer shorter than the byte span addressed by the
shape selected by the given size (408 bytes for size 408; 332 bytes for the
size-328 path), `Event::from_bytes` never returns Ok — it panics on an
out-of-bounds slice or fails with an earlier field error — so it never
silently returns zeroed data; but the failure is a panic or a field error,
not a TruncatedBuffer error value. -/
theorem from_bytes_short_buffer_never_ok :
    ∀ (buf : List Byte) (e : Event),
      (buf.length < 408 → Event.from_bytes 408 buf ≠ .ok e)
      ∧ (buf.length < 332 → Event.from_bytes 328 buf ≠ .ok e) := by
  intro buf e
  constructor
  · intro hlen h
    unfold Event.from_bytes at h
    rw [if_pos rfl] at h
    unfold decodeHandshakeResponse at h
    obtain ⟨s1, hs1, h⟩ := bind_ok_elim h
    obtain ⟨s2, hs2, h⟩ := bind_ok_elim h
    obtain ⟨x1, hx1, h⟩ := bind_ok_elim h
    obtain ⟨x2, hx2, h⟩ := bind_ok_elim h
    obtain ⟨s3, hs3, h⟩ := bind_ok_elim h
    obtain ⟨s4, hs4, h⟩ := bind_ok_elim h
    have := (slice_ok_inv hs4).2.1
    omega
  · intro hlen h
    unfold Event.from_bytes at h
    rw [if_neg (by decide), if_pos rfl] at h
    unfold decodeCarInfo at h
    obtain ⟨a1, hb1, h⟩ := bind_ok_elim h
    obtain ⟨a2, hb2, h⟩ := bind_ok_elim h
    obtain ⟨a3, hb3, h⟩ := bind_ok_elim h
    obtain ⟨a4, hb4, h⟩ := bind_ok_elim h
    obtain ⟨a5, hb5, h⟩ := bind_ok_elim h
    obtain ⟨a6, hb6, h⟩ := bind_ok_elim h
    obtain ⟨a7, hb7, h⟩ := bind_ok_elim h
    obtain ⟨a8, hb8, h⟩ := bind_ok_elim h
    obtain ⟨a9, hb9, h⟩ := bind_ok_elim h
    obtain ⟨a10, hb10, h⟩ := bind_ok_elim h
    obtain ⟨a11, hb11, h⟩ := bind_ok_elim h
    obtain ⟨a12, hb12, h⟩ := bind_ok_elim h
    obtain ⟨a13, hb13, h⟩ := bind_ok_elim h
    obtain ⟨a14, hb14, h⟩ := bind_ok_elim h
    obtain ⟨a15, hb15, h⟩ := bind_ok_elim h
    obtain ⟨a16, hb16, h⟩ := bind_ok_elim h
    obtain ⟨a17, hb17, h⟩ := bind_ok_elim h
    obtain ⟨a18, hb18, h⟩ := bind_ok_elim h
    obtain ⟨lc, hlc, h⟩ := bind_ok_elim h
    have h14 := u32_slice_ok_inv hlc
    omega

/-- Witness for C3 at the empty buffer. -/
theorem from_bytes_short_buffer_never_ok_witness :
    (([] : List Byte).length < 408
      ∧ Event.from_bytes 408 [] ≠ .ok (.lapInfo 0 0 0 "" ""))
    ∧ (([] : List Byte).length < 332
      ∧ Event.from_bytes 328 [] ≠ .ok (.lapInfo 0 0 0 "" "")) :=
  ⟨⟨by decide, (from_bytes_short_buffer_never_ok [] _).1 (by decide)⟩,
   ⟨by decide, (from_bytes_short_buffer_never_ok [] _).2 (by decide)⟩⟩

/-- C4: for every buffer of length at least 56, `Event::from_bytes(328, buf)`
always returns an error and never an Ok CarInfo: either the 4-byte subtype
tag fails to parse as a single char, or the lap_count read of the 14-byte
range `buf[42..56]` fails its conversion into a 4-byte integer. -/
theorem from_bytes_328_always_errors :
    ∀ buf : List Byte, 56 ≤ buf.length →
      ∃ e, Event.from_bytes 328 buf = .err e := by
  intro buf h
  unfold Event.from_bytes
  rw [if_neg (by decide), if_pos rfl]
  unfold decodeCarInfo
  rw [slice_ok (by omega) (by omega)]
  simp only [ok_bind]
  cases hc : char_from_str (parse_utf8_chars ((buf.drop 0).take (4 - 0))) with
  | err e2 => exact ⟨e2, by simp⟩
  | panicked => exact absurd hc (char_from_str_ne_panicked _)
  | ok c =>
    simp only [ok_bind]
    rw [i32_slice_ok (by omega) (by omega) (by omega)]
    simp only [ok_bind]
    rw [f32_slice_ok (by omega) (by omega) (by omega)]
    simp only [ok_bind]
    rw [f32_slice_ok (by omega) (by omega) (by omega)]
    simp only [ok_bind]
    rw [f32_slice_ok (by omega) (by omega) (by omega)]
    simp only [ok_bind]
    rw [bool_slice_ok (by omega) (by omega) (by omega)]
    simp only [ok_bind]
    rw [bool_slice_ok (by omega) (by omega) (by omega)]
    simp only [ok_bind]
    rw [bool_slice_ok (by omega) (by omega) (by omega)]
    simp only [ok_bind]
    rw [bool_slice_ok (by omega) (by omega) (by omega)]
    simp only [ok_bind]
    rw [bool_slice_ok (by omega) (by omega) (by omega)]
    simp only [ok_bind]
    rw [bool_slice_ok (by omega) (by omega) (by omega)]
    simp only [ok_bind]
    rw [f32_slice_ok (by omega) (by omega) (by omega)]
    simp only [ok_bind]
    rw [f32_slice_ok (by omega) (by omega) (by omega)]
    simp only [ok_bind]
    rw [f32_slice_ok (by omega) (by omega) (by omega)]
    simp only [ok_bind]
    rw [u32_slice_ok (by omega) (by omega) (by omega)]
    simp only [ok_bind]
    rw [u32_slice_ok (by omega) (by omega) (by omega)]
    simp only [ok_bind]
    rw [u32_slice_ok (by omega) (by omega) (by omega)]
    simp only [ok_bind]
    rw [u32_slice_err (by omega) (by omega) (by omega)]
    exact ⟨.malformedField, by simp⟩

/-- Witness for C4 on the all-zero 56-byte buffer. -/
theorem from_bytes_328_always_errors_witness :
    56 ≤ (List.replicate 56 (0 : Byte)).length
    ∧ ∃ e, Event.from_bytes 328 (List.replicate 56 (0 : Byte)) = .err e :=
  ⟨by decide, from_bytes_328_always_errors _ (by decide)⟩

/-- C5: the encoder always returns exactly 12 bytes — the device discriminant
at bytes 0–3, the constant 1 at bytes 4–7 and the operation discriminant at
bytes 8–11, each a 32-bit little-endian signed integer — and reading the
three integers back recovers (d, 1, op) exactly, for every device and
operation. -/
theorem build_udp_message_roundtrip :
    ∀ (d : Device) (op : Operation),
      (build_udp_message op d).length = 12
      ∧ i32_from_le_bytes ((build_udp_message op d).take 4) = d.toI32
      ∧ i32_from_le_bytes (((build_udp_message op d).drop 4).take 4) = 1
      ∧ i32_from_le_bytes (((build_udp_message op d).drop 8).take 4) = op.toI32 := by
  intro d op
  cases d <;> cases op <;> decide

/-- C6 (code bug): the wide-text decoder does not pair up input bytes; it
zero-extends each single byte to its own 16-bit unit (the `to_le` call is a
value-level no-op).  On the bytes [0x41, 0x03] the code yields the
two-character string of U+0041 and U+0003, while the spec's pairwise
little-endian decoding (`spec_wide_decode`) yields the single character
U+0341; on the spec's null-padded ASCII example the two happen to agree. -/
theorem parse_to_utf16_chars_bytewise_divergence :
    parse_to_utf16_chars [65, 3] = String.mk [Char.ofNat 65, Char.ofNat 3]
    ∧ spec_wide_decode [65, 3] = String.mk [Char.ofNat 833]
    ∧ parse_to_utf16_chars [65, 3] ≠ spec_wide_decode [65, 3]
    ∧ parse_to_utf16_chars [65, 0, 66, 0] = "AB" :=
  ⟨rfl, rfl, by decide, rfl⟩

/-- C7: the narrow-text decoder is total (lossy, never failing) and removes
every NUL character and every `%` character wherever they occur; the bytes of
the string AB-NUL-C-percent-D decode to "ABCD". -/
theorem parse_utf8_chars_strips_null_and_percent :
    (∀ buf : List Byte, Char.ofNat 0 ∉ (parse_utf8_chars buf).data
      ∧ '%' ∉ (parse_utf8_chars buf).data)
    ∧ parse_utf8_chars [65, 66, 0, 67, 37, 68] = "ABCD" := by
  constructor
  · intro buf
    constructor <;>
      · intro hmem
        simp [parse_utf8_chars, List.mem_filter] at hmem
  · rfl

/-- C8: the boolean-from-byte decoder maps the zero byte to false and every
other byte value to true, and fails with MalformedField on every slice whose
length is not exactly one. -/
theorem parse_bool_from_bytes_spec :
    (∀ b : Byte, parse_bool_from_bytes [b] = .ok (b.val != 0))
    ∧ parse_bool_from_bytes [(0 : Byte)] = .ok false
    ∧ parse_bool_from_bytes [(1 : Byte)] = .ok true
    ∧ parse_bool_from_bytes [(255 : Byte)] = .ok true
    ∧ (∀ s : List Byte, s.length ≠ 1 →
        parse_bool_from_bytes s = .err .malformedField) := by
  refine ⟨?_, rfl, rfl, rfl, ?_⟩
  · intro b
    unfold parse_bool_from_bytes
    have ht : tryInto 1 [b] = .ok [b] := tryInto_ok rfl
    rw [ht]
    simp [u8_from_le_bytes, le_bytes_to_nat]
  · intro s hs
    unfold parse_bool_from_bytes
    rw [tryInto_err hs]
    simp

/-- Witness for C8 on a two-byte slice. -/
theorem parse_bool_from_bytes_spec_witness :
    (List.replicate 2 (0 : Byte)).length ≠ 1
    ∧ parse_bool_from_bytes (List.replicate 2 (0 : Byte)) = .err .malformedField :=
  ⟨by decide, parse_bool_from_bytes_spec.2.2.2.2 _ (by decide)⟩

/-- C9 counterexample: a 17-byte slice does not fail with MalformedField —
the decoder succeeds, reading only the first 16 bytes. -/
theorem parse_f32_wheels_17_bytes_ok_cex :
    parse_f32_wheels (List.replicate 17 (0 : Byte)) = .ok [0, 0, 0, 0]
    ∧ (List.replicate 17 (0 : Byte)).length ≠ 16 :=
  ⟨rfl, by decide⟩

/-- C9 (amended): given at least 16 input bytes `parse_f32_wheels` returns
the four little-endian floats of the first 16 bytes in fixed wheel order,
ignoring any extra bytes; given fewer than 16 bytes it panics on an
out-of-bounds slice.  It never fails with MalformedField. -/
theorem parse_f32_wheels_behavior :
    ∀ s : List Byte,
      (16 ≤ s.length →
        parse_f32_wheels s = .ok [f32_from_le_bytes ((s.drop 0).take 4),
          f32_from_le_bytes ((s.drop 4).take 4),
          f32_from_le_bytes ((s.drop 8).take 4),
          f32_from_le_bytes ((s.drop 12).take 4)])
      ∧ (s.length < 16 → parse_f32_wheels s = .panicked) := by
  intro s
  constructor
  · intro h
    unfold parse_f32_wheels
    rw [f32_slice_ok (by omega) (by omega) (by omega)]
    simp only [ok_bind]
    rw [f32_slice_ok (by omega) (by omega) (by omega)]
    simp only [ok_bind]
    rw [f32_slice_ok (by omega) (by omega) (by omega)]
    simp only [ok_bind]
    rw [f32_slice_ok (by omega) (by omega) (by omega)]
    simp only [ok_bind]
    norm_num
  · intro h
    unfold parse_f32_wheels
    by_cases h4 : s.length < 4
    · rw [f32_slice_panic (by omega)]
      simp
    · rw [f32_slice_ok (by omega) (by omega) (by omega)]
      simp only [ok_bind]
      by_cases h8 : s.length < 8
      · rw [f32_slice_panic (by omega)]
        simp
      · rw [f32_slice_ok (by omega) (by omega) (by omega)]
        simp only [ok_bind]
        by_cases h12 : s.length < 12
        · rw [f32_slice_panic (by omega)]
          simp
        · rw [f32_slice_ok (by omega) (by omega) (by omega)]
          simp only [ok_bind]
          rw [f32_slice_panic (by omega)]
          simp

/-- Witness for C9 at a 16-byte and a 3-byte all-zero slice. -/
theorem parse_f32_wheels_behavior_witness :
    (16 ≤ (List.replicate 16 (0 : Byte)).length
      ∧ parse_f32_wheels (List.replicate 16 (0 : Byte)) = .ok
        [f32_from_le_bytes (((List.replicate 16 (0 : Byte)).drop 0).take 4),
         f32_from_le_bytes (((List.replicate 16 (0 : Byte)).drop 4).take 4),
         f32_from_le_bytes (((List.replicate 16 (0 : Byte)).drop 8).take 4),
         f32_from_le_bytes (((List.replicate 16 (0 : Byte)).drop 12).take 4)])
    ∧ ((List.replicate 3 (0 : Byte)).length < 16
      ∧ parse_f32_wheels (List.replicate 3 (0 : Byte)) = .panicked) :=
  ⟨⟨by decide, (parse_f32_wheels_behavior _).1 (by decide)⟩,
   ⟨by decide, (parse_f32_wheels_behavior _).2 (by decide)⟩⟩

/-- C10: for every buffer, including the empty one, `Event::from_bytes(212,
buf)` returns Ok with a LapInfo whose numeric fields are 0 and whose names
are empty; the buffer is never read, so the result does not depend on it and
the call can never fail for size 212. -/
theorem from_bytes_212_constant_lapinfo :
    ∀ buf : List Byte, Event.from_bytes 212 buf = .ok (.lapInfo 0 0 0 "" "") :=
  fun _ => rfl

end AcLib
